import Mathlib

/-!
Verification of the quantum-scan-worker scan pipeline.

This file gives a shallow embedding, in Lean 4, of the core of the worker
found in `src/unnamed/part_001` (the current revision of the worker; the
repository also ships two earlier revisions of the same program,
`src/worker.js` and `src/unnamed/part_000`).  JavaScript numbers are
modelled by `ℚ`, timestamps (`Date.now()` milliseconds) by `ℤ`, JavaScript
`Map`s by association lists with at most one binding per key, and fallible
asynchronous calls by `Except Unit`-valued oracles supplied per call.
Effects of the stateful code are made explicit by threading the mutated
structures through each function.
-/

/-- Configuration thresholds, mirroring the environment-derived constants of
the worker (`PRICE_MIN`, `PRICE_MAX`, `MIN_PERCENT_CHANGE`, `MIN_RVOL`,
`MAX_FLOAT`, `AVG_VOL_DAYS`, `NEWS_LOOKBACK_MIN`, `ALERT_COOLDOWN_MIN`,
`MAX_CANDIDATES`). -/
structure Config where
  priceMin : ℚ
  priceMax : ℚ
  minPercentChange : ℚ
  minRvol : ℚ
  maxFloat : ℚ
  avgVolDays : ℕ
  newsLookbackMin : ℤ
  alertCooldownMin : ℤ
  maxCandidates : ℤ
deriving DecidableEq

/-- Default configuration of `src/unnamed/part_001` (the `||` fallbacks of the
env lookups). -/
def defaultConfig : Config :=
  { priceMin := 2, priceMax := 20, minPercentChange := 10, minRvol := 5,
    maxFloat := 5000000, avgVolDays := 30, newsLookbackMin := 1440,
    alertCooldownMin := 30, maxCandidates := 300 }

/-- Lookup in an association list (JavaScript `Map.get`). -/
def mapLookup {β : Type} : List (String × β) → String → Option β
  | [], _ => none
  | (k', v) :: rest, k => if k' = k then some v else mapLookup rest k

/-- Removal from an association list (JavaScript `Map.delete`). -/
def mapErase {β : Type} : List (String × β) → String → List (String × β)
  | [], _ => []
  | (k', v) :: rest, k =>
    if k' = k then mapErase rest k else (k', v) :: mapErase rest k

/-- Insert-or-replace in an association list (JavaScript `Map.set`); keeps at
most one binding per key. -/
def mapSet {β : Type} (m : List (String × β)) (k : String) (v : β) :
    List (String × β) :=
  (k, v) :: mapErase m k

/-- A TTL cache entry: `{ value, expiresAt }`. -/
structure CacheEntry (α : Type) where
  value : α
  expiresAt : ℤ
deriving DecidableEq

/-- One namespace of the TTL cache (`cache.avgVol`, `cache.float`,
`cache.news` are three independent values of this type). -/
def CacheMap (α : Type) : Type := List (String × CacheEntry α)

instance {α : Type} [DecidableEq α] : DecidableEq (CacheMap α) :=
  inferInstanceAs (DecidableEq (List (String × CacheEntry α)))

/-- Embedding of `getCache(map, key)`: a hit past its expiry is treated as
absent and the entry is deleted (lazy eviction); the possibly-mutated map is
returned alongside the value.  `Date.now()` is the explicit `now`. -/
def getCache {α : Type} (m : CacheMap α) (key : String) (now : ℤ) :
    Option α × CacheMap α :=
  match mapLookup m key with
  | none => (none, m)
  | some entry =>
    if now > entry.expiresAt then (none, mapErase m key)
    else (some entry.value, m)

/-- Embedding of `setCache(map, key, value, ttlMs)`: stores the value with
absolute expiry `now + ttlMs`. -/
def setCache {α : Type} (m : CacheMap α) (key : String) (value : α)
    (ttlMs : ℤ) (now : ℤ) : CacheMap α :=
  mapSet m key { value := value, expiresAt := now + ttlMs }

/-- A raw ticker object of the Polygon snapshot payload, with the optional
fields the worker reads (`t?.ticker`, `t?.lastTrade?.p`,
`t?.todaysChangePerc`, `t?.day?.v`). -/
structure RawTicker where
  ticker : Option String
  lastTradeP : Option ℚ
  todaysChangePerc : Option ℚ
  dayV : Option ℚ
deriving DecidableEq

/-- A candidate derived from a snapshot entry by the prefilter's `.map`
step.  `x || 0` coercion of an absent field yields `0`; an absent symbol is
collapsed to `""`, which the filter rejects exactly as JavaScript rejects
`undefined`. -/
structure Candidate where
  symbol : String
  price : ℚ
  percentChange : ℚ
  dayVol : ℚ
deriving DecidableEq

/-- The `.map((t) => { ... })` step of the prefilter in `scan`. -/
def toCandidate (t : RawTicker) : Candidate :=
  { symbol := t.ticker.getD "", price := t.lastTradeP.getD 0,
    percentChange := t.todaysChangePerc.getD 0, dayVol := t.dayV.getD 0 }

/-- Ordering used by `.sort((a, b) => b.dayVol - a.dayVol)`: descending by
day volume. -/
def volDescLE (a b : Candidate) : Prop := b.dayVol ≤ a.dayVol

instance : DecidableRel volDescLE :=
  fun a b => inferInstanceAs (Decidable (b.dayVol ≤ a.dayVol))

instance : IsTotal Candidate volDescLE :=
  ⟨fun a b => le_total b.dayVol a.dayVol⟩

instance : IsTrans Candidate volDescLE :=
  ⟨fun _ _ _ h1 h2 => le_trans h2 h1⟩

/-- The cheap prefilter of `scan` in `src/unnamed/part_001` (lines 458-475):
map to candidates, keep non-empty symbols with price inside
`[priceMin, priceMax]` and percent change `≥ minPercentChange`, sort
descending by day volume (a stable sort, as V8's `sort` is), and apply the
`MAX_CANDIDATES` cap only when it is positive. -/
def prefilter (cfg : Config) (tickers : List RawTicker) : List Candidate :=
  let mapped := tickers.map toCandidate
  let filtered :=
    (mapped.filter (fun t =>
        decide (t.symbol ≠ "" ∧ cfg.priceMin ≤ t.price ∧ t.price ≤ cfg.priceMax))).filter
      (fun t => decide (cfg.minPercentChange ≤ t.percentChange))
  let sorted := List.insertionSort volDescLE filtered
  if 0 < cfg.maxCandidates then sorted.take cfg.maxCandidates.toNat else sorted

/-- One page of the snapshot endpoint: the `tickers` array (`[]` when the
field is not an array) and the optional `next_url` continuation token. -/
structure SnapPage where
  tickers : List RawTicker
  nextUrl : Option String
deriving DecidableEq

/-- Substring test used to model JavaScript `String.prototype.includes` for a
non-empty pattern. -/
def strContains (s pat : String) : Bool := decide (1 < (s.splitOn pat).length)

/-- The `next_url` fix-up of `fetchAllSnapshotTickers`: re-attach the apiKey
query parameter when the upstream omitted it. -/
def withApiKey (key url : String) : String :=
  if strContains url "apiKey=" then url
  else url ++ (if strContains url "?" then "&" else "?") ++ "apiKey=" ++ key

/-- Initial snapshot URL of `fetchAllSnapshotTickers`. -/
def snapshotUrl (key : String) : String :=
  "https://api.polygon.io/v2/snapshot/locale/us/markets/stocks/tickers?apiKey=" ++ key

/-- `MAX_PAGES` hard page-count ceiling of `fetchAllSnapshotTickers`. -/
def MAX_PAGES : ℕ := 20

/-- The pagination loop of `fetchAllSnapshotTickers`, recursing on the number
of remaining loop iterations.  `fetch` is the oracle standing for
`polygonJson` (it throws, i.e. returns `.error`, exactly when the page
request fails).  A falsy `next_url` (absent or `""`) ends the loop with the
accumulated tickers; exhausting the page budget also returns the accumulated
tickers without error. -/
def fetchLoop (key : String) (fetch : String → Except Unit SnapPage) :
    ℕ → String → Except Unit (List RawTicker)
  | 0, _ => .ok []
  | n + 1, url =>
    match fetch url with
    | .error e => .error e
    | .ok data =>
      if data.nextUrl.getD "" = "" then .ok data.tickers
      else
        match fetchLoop key fetch n (withApiKey key (data.nextUrl.getD "")) with
        | .error e => .error e
        | .ok rest => .ok (data.tickers ++ rest)

/-- Embedding of `fetchAllSnapshotTickers` of `src/unnamed/part_001`
(lines 282-303). -/
def fetchAllSnapshotTickers (key : String)
    (fetch : String → Except Unit SnapPage) : Except Unit (List RawTicker) :=
  fetchLoop key fetch MAX_PAGES (snapshotUrl key)

/-- The chain of pages the fetch loop visits from a given URL, truncated at
the remaining page budget, stopping early at a fetch failure or a falsy
continuation token. -/
def pageChain (key : String) (fetch : String → Except Unit SnapPage) :
    ℕ → String → List SnapPage
  | 0, _ => []
  | n + 1, url =>
    match fetch url with
    | .error _ => []
    | .ok data =>
      data ::
        (if data.nextUrl.getD "" = "" then []
         else pageChain key fetch n (withApiKey key (data.nextUrl.getD "")))

/-- Every page request along the (budget-truncated) chain succeeds. -/
def chainOk (key : String) (fetch : String → Except Unit SnapPage) :
    ℕ → String → Prop
  | 0, _ => True
  | n + 1, url =>
    ∃ data, fetch url = .ok data ∧
      (data.nextUrl.getD "" ≠ "" →
        chainOk key fetch n (withApiKey key (data.nextUrl.getD "")))

/-- The URL the fetch loop reaches after `k` successfully fetched pages each
carrying a continuation token. -/
def reachUrl (key : String) (fetch : String → Except Unit SnapPage) :
    ℕ → String → Option String
  | 0, url => some url
  | k + 1, url =>
    match fetch url with
    | .error _ => none
    | .ok data =>
      if data.nextUrl.getD "" = "" then none
      else reachUrl key fetch k (withApiKey key (data.nextUrl.getD ""))

/-- The reference-info payload fields read by `getFloatOrSharesOutstanding`;
an absent field coerces to `NaN` in JavaScript, which is falsy, so `none`
below behaves like a field whose `Number(...)` coercion is falsy. -/
structure RefInfo where
  float : Option ℚ
  share_class_shares_outstanding : Option ℚ
  weighted_shares_outstanding : Option ℚ
deriving DecidableEq

/-- First element whose numeric coercion is truthy (present and nonzero),
else `0`: the `Number(a) || Number(b) || Number(c) || 0` chain. -/
def firstTruthy : List (Option ℚ) → ℚ
  | [] => 0
  | some v :: rest => if v = 0 then firstTruthy rest else v
  | none :: rest => firstTruthy rest

/-- The `floatLike` expression of `getFloatOrSharesOutstanding`. -/
def pickFloatLike (r : RefInfo) : ℚ :=
  firstTruthy [r.float, r.share_class_shares_outstanding,
               r.weighted_shares_outstanding]

instance exceptDecEq {ε α : Type} [DecidableEq ε] [DecidableEq α] :
    DecidableEq (Except ε α)
  | .ok a, .ok b =>
    if h : a = b then .isTrue (by rw [h])
    else .isFalse (fun hh => h (Except.ok.inj hh))
  | .ok _, .error _ => .isFalse (fun hh => Except.noConfusion hh)
  | .error _, .ok _ => .isFalse (fun hh => Except.noConfusion hh)
  | .error e, .error f =>
    if h : e = f then .isTrue (by rw [h])
    else .isFalse (fun hh => h (Except.error.inj hh))

/-- Outcomes of the external calls one candidate check can make: the
persisted-recency query (`pool.query`, `.error` means the store is
unreachable), the alert insert, the daily-bars fetch (the list of
`Number(r?.v || 0)` volumes), the news fetch (the `results` count) and the
reference-info fetch. -/
structure Oracle where
  db : Except Unit Unit
  insertDb : Except Unit Unit
  aggs : Except Unit (List ℚ)
  news : Except Unit ℕ
  ref : Except Unit RefInfo
deriving DecidableEq

/-- The mutable state one candidate check reads and writes: the three TTL
cache namespaces, the in-memory cooldown map, the persisted `alerts` table
(ticker and `created_at`), and the per-run counters the check touches. -/
structure ScanState where
  avgVolCache : CacheMap ℚ
  floatCache : CacheMap ℚ
  newsCache : CacheMap Bool
  cooldownMap : List (String × ℤ)
  alertsTable : List (String × ℤ)
  deepChecked : ℕ
  alertsCreated : ℕ
deriving DecidableEq

/-- The alert payload constructed when a candidate passes all checks. -/
structure Alert where
  ticker : String
  price : ℚ
  percent_change : ℚ
  rvol : ℚ
  float : ℤ
  news : Bool
deriving DecidableEq

/-- `Number(x.toFixed(2))`: round to two decimal places. -/
def roundTo2 (q : ℚ) : ℚ := ((round (q * 100) : ℤ) : ℚ) / 100

/-- Embedding of `inCooldown(ticker)`: a falsy stored expiry (absent, or the
number `0`) yields `false`; a stale positive expiry is deleted lazily and
yields `false`; otherwise `true`.  Returns the possibly-mutated map. -/
def inCooldown (m : List (String × ℤ)) (ticker : String) (now : ℤ) :
    Bool × List (String × ℤ) :=
  match mapLookup m ticker with
  | none => (false, m)
  | some exp =>
    if exp = 0 then (false, m)
    else if now > exp then (false, mapErase m ticker)
    else (true, m)

/-- Embedding of `setCooldown(ticker)`: expiry is
`Date.now() + ALERT_COOLDOWN_MIN * 60 * 1000`. -/
def setCooldown (cfg : Config) (m : List (String × ℤ)) (ticker : String)
    (now : ℤ) : List (String × ℤ) :=
  mapSet m ticker (now + cfg.alertCooldownMin * 60 * 1000)

/-- Embedding of `wasAlertedRecently(ticker)`: when the store is reachable,
the SQL query reports whether some alert row for the ticker has
`created_at >= now() - ALERT_COOLDOWN_MIN minutes`; when the store is
unreachable the call throws. -/
def wasAlertedRecently (cfg : Config) (table : List (String × ℤ)) (now : ℤ)
    (ticker : String) (db : Except Unit Unit) : Except Unit Bool :=
  match db with
  | .error e => .error e
  | .ok _ =>
    .ok (table.any (fun p =>
      decide (p.1 = ticker ∧ now - cfg.alertCooldownMin * 60 * 1000 ≤ p.2)))

/-- Embedding of `getAvgDailyVolume(ticker)`: consult the avgVol cache
(lazily evicting), otherwise fetch the daily bars (which may throw), keep the
positive volumes, truncate to `AVG_VOL_DAYS` entries, cache `0` for six
hours when none remain, else cache the rounded mean for six hours. -/
def getAvgDailyVolume (cfg : Config) (m : CacheMap ℚ) (now : ℤ)
    (ticker : String) (aggs : Except Unit (List ℚ)) :
    Except Unit ℚ × CacheMap ℚ :=
  match getCache m ticker now with
  | (some v, m') => (.ok v, m')
  | (none, m') =>
    match aggs with
    | .error e => (.error e, m')
    | .ok results =>
      let vols := (results.filter (fun v => decide (0 < v))).take cfg.avgVolDays
      if vols.isEmpty then
        (.ok 0, setCache m' ticker 0 (6 * 60 * 60 * 1000) now)
      else
        let avg : ℚ := ((round (vols.sum / (vols.length : ℚ)) : ℤ) : ℚ)
        (.ok avg, setCache m' ticker avg (6 * 60 * 60 * 1000) now)

/-- Embedding of `hasRecentNews(ticker)`: consult the news cache, otherwise
query the news endpoint; a query failure is caught internally and treated as
`false`; the outcome — including the failure-derived `false` — is cached for
five minutes. -/
def hasRecentNews (m : CacheMap Bool) (now : ℤ) (ticker : String)
    (news : Except Unit ℕ) : Bool × CacheMap Bool :=
  match getCache m ticker now with
  | (some v, m') => (v, m')
  | (none, m') =>
    let ok : Bool :=
      match news with
      | .error _ => false
      | .ok n => decide (0 < n)
    (ok, setCache m' ticker ok (5 * 60 * 1000) now)

/-- Embedding of `getFloatOrSharesOutstanding(ticker)`: consult the float
cache, otherwise fetch reference info (which may throw), take the first
truthy of `float`, `share_class_shares_outstanding`,
`weighted_shares_outstanding` (else `0`), and cache it for 24 hours. -/
def getFloatOrSharesOutstanding (m : CacheMap ℚ) (now : ℤ) (ticker : String)
    (ref : Except Unit RefInfo) : Except Unit ℚ × CacheMap ℚ :=
  match getCache m ticker now with
  | (some v, m') => (.ok v, m')
  | (none, m') =>
    match ref with
    | .error e => (.error e, m')
    | .ok r =>
      let floatLike := pickFloatLike r
      (.ok floatLike, setCache m' ticker floatLike (24 * 60 * 60 * 1000) now)

/-- Embedding of the per-candidate worker closure of `scan` in
`src/unnamed/part_001` (lines 482-536).  The body is wrapped in
`try/catch`, so a thrown upstream error aborts only this candidate: the
function then returns `none` with whatever state mutations happened before
the throw.  `pushToBase44` never throws and touches none of the modelled
state, so it contributes nothing here. -/
def processCandidate (cfg : Config) (st : ScanState) (now : ℤ)
    (c : Candidate) (o : Oracle) : ScanState × Option Alert :=
  let icd := inCooldown st.cooldownMap c.symbol now
  let st1 := { st with cooldownMap := icd.2 }
  if icd.1 then (st1, none)
  else
    match wasAlertedRecently cfg st1.alertsTable now c.symbol o.db with
    | .error _ => (st1, none)
    | .ok true =>
      ({ st1 with cooldownMap := setCooldown cfg st1.cooldownMap c.symbol now }, none)
    | .ok false =>
      let st2 := { st1 with deepChecked := st1.deepChecked + 1 }
      match getAvgDailyVolume cfg st2.avgVolCache now c.symbol o.aggs with
      | (.error _, m) => ({ st2 with avgVolCache := m }, none)
      | (.ok avgVol, m) =>
        let st3 := { st2 with avgVolCache := m }
        if avgVol ≤ 0 then (st3, none)
        else
          let rvol := c.dayVol / avgVol
          if rvol < cfg.minRvol then (st3, none)
          else
            let hn := hasRecentNews st3.newsCache now c.symbol o.news
            let st4 := { st3 with newsCache := hn.2 }
            if !hn.1 then (st4, none)
            else
              match getFloatOrSharesOutstanding st4.floatCache now c.symbol o.ref with
              | (.error _, fm) => ({ st4 with floatCache := fm }, none)
              | (.ok floatVal, fm) =>
                let st5 := { st4 with floatCache := fm }
                if floatVal ≤ 0 then (st5, none)
                else if cfg.maxFloat < floatVal then (st5, none)
                else
                  let alert : Alert :=
                    { ticker := c.symbol, price := c.price,
                      percent_change := c.percentChange,
                      rvol := roundTo2 rvol, float := round floatVal,
                      news := true }
                  match o.insertDb with
                  | .error _ => (st5, none)
                  | .ok _ =>
                    ({ st5 with
                        alertsTable := (c.symbol, now) :: st5.alertsTable,
                        alertsCreated := st5.alertsCreated + 1,
                        cooldownMap := setCooldown cfg st5.cooldownMap c.symbol now },
                      some alert)

/-- One scheduled evaluation of a candidate: the wall-clock time of the
check, the candidate, and the outcomes of the external calls it may make. -/
structure CheckEvent where
  now : ℤ
  cand : Candidate
  oracle : Oracle

/-- Run a sequence of candidate checks, threading the shared state and
collecting each check's alert output. -/
def runChecks (cfg : Config) (st : ScanState) :
    List CheckEvent → ScanState × List (Option Alert)
  | [] => (st, [])
  | ev :: rest =>
    let p := processCandidate cfg st ev.now ev.cand ev.oracle
    let q := runChecks cfg p.1 rest
    (q.1, p.2 :: q.2)

/-- Status of one logical runner of `runWithConcurrency`: at the `while`
loop head, awaiting the worker on a claimed index, returned normally, or
terminated by an exception the worker threw. -/
inductive RStatus (ρ : Type) where
  | ready
  | working (i : ℕ)
  | done
  | failed
deriving DecidableEq

/-- State of a `runWithConcurrency` call: the shared index cursor `idx`, the
`results` array (a sparse array, written positionally), and the statuses of
the spawned runners. -/
structure ExecState (ρ : Type) where
  idx : ℕ
  results : ℕ → Option ρ
  runners : List (RStatus ρ)

/-- Pointwise update of the results array. -/
def updRes {ρ : Type} (res : ℕ → Option ρ) (i : ℕ) (v : ρ) : ℕ → Option ρ :=
  fun j => if j = i then some v else res j

/-- Initial state of `runWithConcurrency(items, limit, workerFn)`:
`Math.max(1, limit)` runners are spawned at the loop head. -/
def initExec (ρ : Type) (limit : ℕ) : ExecState ρ :=
  { idx := 0, results := fun _ => none,
    runners := List.replicate (max 1 limit) .ready }

/-- One scheduler step of runner `r`.  A ready runner atomically performs
the `while` test and `const currentIndex = idx++` claim (these are separated
by no suspension point in the source) or returns when the cursor has passed
the end; a working runner resumes from `await workerFn(...)`, writing
`results[currentIndex]` on normal completion and dying on a thrown
exception.  Steps for finished, failed, or out-of-range runners do
nothing. -/
def stepExec {α ε ρ : Type} (f : α → ℕ → Except ε ρ) (items : List α)
    (s : ExecState ρ) (r : ℕ) : ExecState ρ :=
  match s.runners[r]? with
  | some .ready =>
    if s.idx < items.length then
      { s with idx := s.idx + 1, runners := s.runners.set r (.working s.idx) }
    else { s with runners := s.runners.set r .done }
  | some (.working i) =>
    match items[i]? with
    | none => s
    | some a =>
      match f a i with
      | .ok v =>
        { s with results := updRes s.results i v,
                 runners := s.runners.set r .ready }
      | .error _ => { s with runners := s.runners.set r .failed }
  | some .done => s
  | some .failed => s
  | none => s

/-- Run the `runWithConcurrency` machine under a scheduler trace (the list of
runner ids chosen at each step). -/
def runExec {α ε ρ : Type} (f : α → ℕ → Except ε ρ) (items : List α)
    (limit : ℕ) (sched : List ℕ) : ExecState ρ :=
  sched.foldl (stepExec f items) (initExec ρ limit)

/-- All runners have returned: the point at which `Promise.all` resolves and
`runWithConcurrency` returns. -/
def allDone {ρ : Type} (s : ExecState ρ) : Bool :=
  s.runners.all (fun st => match st with | .done => true | _ => false)

/-- The orchestrator state of `src/unnamed/part_001`: the Running flag, the
last error, the heartbeat and scan timestamps, and the per-run counters. -/
structure OrchState where
  isScanning : Bool
  lastError : Option String
  lastLoopAt : Option ℤ
  lastScanStartedAt : Option ℤ
  lastScanFinishedAt : Option ℤ
  lastScanDurationMs : Option ℤ
  tickersFetched : ℕ
  candidatesFound : ℕ
  deepChecked : ℕ
  alertsCreated : ℕ
  scanRuns : ℕ
deriving DecidableEq

/-- Orchestrator events: a timer tick invoking `scan()` at a given time, and
the completion of a running scan body (reaching the `finally` block at time
`now`, for a run started at `started`, with the error message caught by the
`catch`, if any). -/
inductive OrchEvent where
  | tick (now : ℤ)
  | finish (now started : ℤ) (err : Option String)
deriving DecidableEq

/-- Entry of `scan()` in `src/unnamed/part_001` (lines 433-448): record the
heartbeat, then the single-flight guard returns at once while a scan is
Running; otherwise enter Running, bump `scanRuns`, clear the last error,
record the start time and reset the per-run counters.  The boolean reports
whether a scan was started. -/
def scanEnter (st : OrchState) (now : ℤ) : OrchState × Bool :=
  let stHeart := { st with lastLoopAt := some now }
  if stHeart.isScanning then (stHeart, false)
  else
    ({ stHeart with
        isScanning := true, scanRuns := st.scanRuns + 1, lastError := none,
        lastScanStartedAt := some now, tickersFetched := 0,
        candidatesFound := 0, deepChecked := 0, alertsCreated := 0 }, true)

/-- The `catch`/`finally` tail of `scan()` (lines 537-545): record the
caught error (if the body threw), the finish time and duration, and return
to Idle. -/
def scanFinish (st : OrchState) (now started : ℤ) (err : Option String) :
    OrchState :=
  { st with
      lastError := match err with | some m => some m | none => st.lastError,
      lastScanFinishedAt := some now,
      lastScanDurationMs := some (now - started),
      isScanning := false }

/-- One orchestrator transition; the boolean reports whether this event
started a scan. -/
def stepOrch (st : OrchState) : OrchEvent → OrchState × Bool
  | .tick now => scanEnter st now
  | .finish now started err => (scanFinish st now started err, false)

/-- Run the orchestrator over an event trace, collecting the started
flags. -/
def runOrch (st : OrchState) : List OrchEvent → OrchState × List Bool
  | [] => (st, [])
  | ev :: rest =>
    let p := stepOrch st ev
    let q := runOrch p.1 rest
    (q.1, p.2 :: q.2)

/-- Machine invariant of `runWithConcurrency`: the cursor never passes the
end; every written result slot holds the worker's value for that item; every
claimed index is either written, owned by a working runner, or abandoned to
a failed runner; a runner returns only once the cursor has passed the end;
and working runners own only already-claimed indices. -/
def ExecInv {α ε ρ : Type} (f : α → ℕ → Except ε ρ) (items : List α)
    (s : ExecState ρ) : Prop :=
  s.idx ≤ items.length
  ∧ (∀ i v, s.results i = some v → ∃ a, items[i]? = some a ∧ f a i = .ok v)
  ∧ (∀ i, i < s.idx →
      s.results i ≠ none ∨ (RStatus.working i) ∈ s.runners
        ∨ (RStatus.failed : RStatus ρ) ∈ s.runners)
  ∧ ((RStatus.done : RStatus ρ) ∈ s.runners → items.length ≤ s.idx)
  ∧ (∀ i, (RStatus.working i) ∈ s.runners → i < s.idx)

/-- Single-runner invariant of `runWithConcurrency` with `limit = 1`: the
lone runner is at the loop head with all claimed indices written, or is
working (or died) on the last claimed index with all earlier indices
written — so the set of written slots is always an initial segment,
i.e. execution is sequential in input order. -/
def SeqInv {ρ : Type} (s : ExecState ρ) : Prop :=
  ((s.runners = [.ready] ∨ s.runners = [.done])
    ∧ ∀ i, s.results i ≠ none ↔ i < s.idx)
  ∨ (∃ j, s.idx = j + 1 ∧ (s.runners = [.working j] ∨ s.runners = [.failed])
      ∧ ∀ i, s.results i ≠ none ↔ i < j)

/-- The kept-and-truncated daily volumes of `getAvgDailyVolume`:
`results.filter(v > 0).slice(0, AVG_VOL_DAYS)`. -/
def volsOf (cfg : Config) (l : List ℚ) : List ℚ :=
  (l.filter (fun v => decide (0 < v))).take cfg.avgVolDays

/-- The rounded mean volume of `getAvgDailyVolume` for a non-empty kept
list. -/
def avgOfVols (cfg : Config) (l : List ℚ) : ℚ :=
  ((round ((volsOf cfg l).sum / ((volsOf cfg l).length : ℚ)) : ℤ) : ℚ)

/-- A scan state with empty caches and tables, for concrete instantiation. -/
def emptyScanState : ScanState :=
  { avgVolCache := [], floatCache := [], newsCache := [], cooldownMap := [],
    alertsTable := [], deepChecked := 0, alertsCreated := 0 }

theorem mapLookup_mapSet_self {β : Type} (m : List (String × β)) (k : String)
    (v : β) : mapLookup (mapSet m k v) k = some v := by
  simp [mapSet, mapLookup]

/-- C4 counterexample: the claim says a `get` at elapsed time `≥ T` returns
absent, but at elapsed time exactly `T` (set at time `0` with `ttl = 5`,
get at time `5`) `getCache` returns the stored value, because the expiry
test is the strict `Date.now() > entry.expiresAt`. -/
theorem getCache_at_exact_ttl_counterexample :
    (getCache (setCache ([] : CacheMap ℚ) "AAA" 42 5 0) "AAA" 5).1 = some 42 := by
  decide

/-- C4 (amended): after `setCache(ttl = T)` at time `t0`, a `get` at any
time `t1` with elapsed time `t1 - t0 ≤ T` returns the stored value and
leaves the map unchanged, while a `get` with elapsed time `> T` returns
absent and removes the entry from the map (lazy eviction on access). -/
theorem getCache_after_setCache {α : Type} (m : CacheMap α) (k : String)
    (v : α) (ttl t0 t1 : ℤ) :
    (t1 ≤ t0 + ttl →
      getCache (setCache m k v ttl t0) k t1 = (some v, setCache m k v ttl t0))
    ∧ (t0 + ttl < t1 →
      getCache (setCache m k v ttl t0) k t1 =
        (none, mapErase (setCache m k v ttl t0) k)) := by
  constructor
  · intro h
    simp [getCache, setCache, mapLookup_mapSet_self, not_lt.mpr h]
  · intro h
    simp [getCache, setCache, mapLookup_mapSet_self, h]

theorem getCache_after_setCache_witness :
    (getCache (setCache ([] : CacheMap ℚ) "AAA" 7 10 0) "AAA" 3 =
      (some 7, setCache ([] : CacheMap ℚ) "AAA" 7 10 0))
    ∧ (getCache (setCache ([] : CacheMap ℚ) "AAA" 7 10 0) "AAA" 11 =
      (none, mapErase (setCache ([] : CacheMap ℚ) "AAA" 7 10 0) "AAA")) :=
  ⟨(getCache_after_setCache ([] : CacheMap ℚ) "AAA" 7 10 0 3).1 (by decide),
   (getCache_after_setCache ([] : CacheMap ℚ) "AAA" 7 10 0 11).2 (by decide)⟩

/-- An option whose JavaScript numeric coercion is falsy: the field is
absent (`Number(undefined)` is `NaN`) or zero. -/
def OptFalsy (x : Option ℚ) : Prop := x.getD 0 = 0

instance (x : Option ℚ) : Decidable (OptFalsy x) :=
  inferInstanceAs (Decidable (x.getD 0 = 0))

/-- C10: `getFloatOrSharesOutstanding` picks the first of `float`,
`share_class_shares_outstanding`, `weighted_shares_outstanding` whose
numeric coercion is truthy (present and nonzero), else `0`; the picked
value is cached for 24 hours under the float namespace; and an unexpired
cached value — including a cached `0` — is served back with no upstream
query (the result does not depend on the reference-info oracle and the
cache map is untouched). -/
theorem floatOrSharesOutstanding_spec :
    (∀ (m : CacheMap ℚ) (now : ℤ) (tk : String) (r : RefInfo),
      mapLookup m tk = none →
      getFloatOrSharesOutstanding m now tk (.ok r) =
        (.ok (pickFloatLike r),
         setCache m tk (pickFloatLike r) (24 * 60 * 60 * 1000) now))
    ∧ (∀ (r : RefInfo) (v : ℚ),
        (r.float = some v → v ≠ 0 → pickFloatLike r = v)
        ∧ (OptFalsy r.float → r.share_class_shares_outstanding = some v →
            v ≠ 0 → pickFloatLike r = v)
        ∧ (OptFalsy r.float → OptFalsy r.share_class_shares_outstanding →
            r.weighted_shares_outstanding = some v → v ≠ 0 →
            pickFloatLike r = v))
    ∧ (∀ (r : RefInfo),
        OptFalsy r.float → OptFalsy r.share_class_shares_outstanding →
        OptFalsy r.weighted_shares_outstanding → pickFloatLike r = 0)
    ∧ (∀ (m : CacheMap ℚ) (now : ℤ) (tk : String) (e : CacheEntry ℚ)
        (ref : Except Unit RefInfo),
        mapLookup m tk = some e → ¬ now > e.expiresAt →
        getFloatOrSharesOutstanding m now tk ref = (.ok e.value, m)) := by
  refine ⟨?_, ?_, ?_, ?_⟩
  · intro m now tk r h
    simp [getFloatOrSharesOutstanding, getCache, h]
  · intro r v
    refine ⟨?_, ?_, ?_⟩
    · intro h hv
      simp [pickFloatLike, firstTruthy, h, hv]
    · intro h1 h2 hv
      rcases hf : r.float with _ | w
      · simp [pickFloatLike, firstTruthy, hf, h2, hv]
      · have : w = 0 := by simpa [OptFalsy, hf] using h1
        simp [pickFloatLike, firstTruthy, hf, this, h2, hv]
    · intro h1 h2 h3 hv
      rcases hf : r.float with _ | w
      · rcases hs : r.share_class_shares_outstanding with _ | u
        · simp [pickFloatLike, firstTruthy, hf, hs, h3, hv]
        · have : u = 0 := by simpa [OptFalsy, hs] using h2
          simp [pickFloatLike, firstTruthy, hf, hs, this, h3, hv]
      · have hw : w = 0 := by simpa [OptFalsy, hf] using h1
        rcases hs : r.share_class_shares_outstanding with _ | u
        · simp [pickFloatLike, firstTruthy, hf, hw, hs, h3, hv]
        · have : u = 0 := by simpa [OptFalsy, hs] using h2
          simp [pickFloatLike, firstTruthy, hf, hw, hs, this, h3, hv]
  · intro r h1 h2 h3
    rcases hf : r.float with _ | w <;>
      rcases hs : r.share_class_shares_outstanding with _ | u <;>
      rcases hw : r.weighted_shares_outstanding with _ | z <;>
      simp_all [pickFloatLike, firstTruthy, OptFalsy]
  · intro m now tk e ref h hexp
    simp [getFloatOrSharesOutstanding, getCache, h, hexp]

theorem floatOrSharesOutstanding_witness :
    (getFloatOrSharesOutstanding ([] : CacheMap ℚ) 0 "AAA"
        (.ok ⟨none, some 3000000, some 9⟩) =
      (.ok (pickFloatLike ⟨none, some 3000000, some 9⟩),
       setCache ([] : CacheMap ℚ) "AAA" (pickFloatLike ⟨none, some 3000000, some 9⟩)
         (24 * 60 * 60 * 1000) 0))
    ∧ pickFloatLike ⟨none, some 3000000, some 9⟩ = 3000000
    ∧ pickFloatLike ⟨some 0, none, none⟩ = 0
    ∧ getFloatOrSharesOutstanding [("AAA", ⟨0, 100⟩)] 50 "AAA" (.error ()) =
        (.ok 0, [("AAA", (⟨0, 100⟩ : CacheEntry ℚ))]) :=
  ⟨floatOrSharesOutstanding_spec.1 [] 0 "AAA" ⟨none, some 3000000, some 9⟩ rfl,
   (floatOrSharesOutstanding_spec.2.1 ⟨none, some 3000000, some 9⟩ 3000000).2.1
     (by decide) rfl (by decide),
   floatOrSharesOutstanding_spec.2.2.1 ⟨some 0, none, none⟩ (by decide)
     (by decide) (by decide),
   floatOrSharesOutstanding_spec.2.2.2 [("AAA", ⟨0, 100⟩)] 50 "AAA" ⟨0, 100⟩
     (.error ()) (by decide) (by decide)⟩

theorem hasRecentNews_cached (m : CacheMap Bool) (now : ℤ) (tk : String)
    (news : Except Unit ℕ) (e : CacheEntry Bool) (h : mapLookup m tk = some e)
    (hexp : ¬ now > e.expiresAt) : hasRecentNews m now tk news = (e.value, m) := by
  simp [hasRecentNews, getCache, h, hexp]

theorem newsBlocked_processCandidate (cfg : Config) (st : ScanState) (now : ℤ)
    (c : Candidate) (o : Oracle) (e : CacheEntry Bool)
    (hl : mapLookup st.newsCache c.symbol = some e) (hval : e.value = false)
    (hexp : ¬ now > e.expiresAt) :
    (processCandidate cfg st now c o).2 = none := by
  have hnews : hasRecentNews st.newsCache now c.symbol o.news = (false, st.newsCache) := by
    rw [hasRecentNews_cached st.newsCache now c.symbol o.news e hl hexp, hval]
  simp only [processCandidate]
  split
  · rfl
  · split
    · rfl
    · rfl
    · split
      · rfl
      · split
        · rfl
        · split
          · rfl
          · rw [hnews]
            simp

/-- C9: when the news lookup misses the cache and the upstream query throws,
`hasRecentNews` returns `false` and caches `false` for the full five-minute
news TTL; an unexpired cached entry is then served back untouched for every
oracle (no re-query within the window); and while a cached `false` for a
symbol is unexpired, every evaluation of that symbol by the per-candidate
worker produces no alert. -/
theorem news_failure_negative_cache :
    (∀ (m : CacheMap Bool) (now : ℤ) (tk : String) (e : Unit),
      mapLookup m tk = none →
      hasRecentNews m now tk (.error e) =
        (false, setCache m tk false (5 * 60 * 1000) now))
    ∧ (∀ (m : CacheMap Bool) (now : ℤ) (tk : String) (news : Except Unit ℕ)
        (e : CacheEntry Bool),
        mapLookup m tk = some e → ¬ now > e.expiresAt →
        hasRecentNews m now tk news = (e.value, m))
    ∧ (∀ (cfg : Config) (st : ScanState) (now : ℤ) (c : Candidate)
        (o : Oracle) (e : CacheEntry Bool),
        mapLookup st.newsCache c.symbol = some e → e.value = false →
        ¬ now > e.expiresAt → (processCandidate cfg st now c o).2 = none) := by
  refine ⟨?_, ?_, ?_⟩
  · intro m now tk e h
    simp [hasRecentNews, getCache, h]
  · intro m now tk news e h hexp
    exact hasRecentNews_cached m now tk news e h hexp
  · intro cfg st now c o e hl hval hexp
    exact newsBlocked_processCandidate cfg st now c o e hl hval hexp

theorem news_failure_negative_cache_witness :
    (hasRecentNews ([] : CacheMap Bool) 0 "AAA" (.error ()) =
      (false, setCache ([] : CacheMap Bool) "AAA" false (5 * 60 * 1000) 0))
    ∧ (hasRecentNews [("AAA", ⟨false, 300000⟩)] 200000 "AAA" (.ok 5) =
      (false, [("AAA", (⟨false, 300000⟩ : CacheEntry Bool))]))
    ∧ ((processCandidate defaultConfig
        { emptyScanState with newsCache := [("AAA", ⟨false, 300000⟩)] } 200000
        ⟨"AAA", 5, 15, 10000000⟩
        ⟨.ok (), .ok (), .ok [1000000], .ok 5, .ok ⟨some 2000000, none, none⟩⟩).2 = none) :=
  ⟨news_failure_negative_cache.1 [] 0 "AAA" () rfl,
   news_failure_negative_cache.2.1 [("AAA", ⟨false, 300000⟩)] 200000 "AAA"
     (.ok 5) ⟨false, 300000⟩ (by decide) (by decide),
   news_failure_negative_cache.2.2 defaultConfig
     { emptyScanState with newsCache := [("AAA", ⟨false, 300000⟩)] } 200000
     ⟨"AAA", 5, 15, 10000000⟩
     ⟨.ok (), .ok (), .ok [1000000], .ok 5, .ok ⟨some 2000000, none, none⟩⟩
     ⟨false, 300000⟩ (by decide) rfl (by decide)⟩

theorem processCandidate_db_error (cfg : Config) (st : ScanState) (now : ℤ)
    (c : Candidate) (o : Oracle) (e : Unit) (hdb : o.db = .error e) :
    (processCandidate cfg st now c o).2 = none
    ∧ (processCandidate cfg st now c o).1.deepChecked = st.deepChecked := by
  refine ⟨?_, ?_⟩ <;>
  · simp only [processCandidate, wasAlertedRecently, hdb]
    split <;> rfl

theorem processCandidate_recently_blocked (cfg : Config) (st : ScanState)
    (now : ℤ) (c : Candidate) (o : Oracle) (t : ℤ)
    (ht : (c.symbol, t) ∈ st.alertsTable)
    (hwin : now - cfg.alertCooldownMin * 60 * 1000 ≤ t) :
    (processCandidate cfg st now c o).2 = none := by
  have hq : ∀ d : Unit, wasAlertedRecently cfg st.alertsTable now c.symbol (.ok d) = .ok true := by
    intro d
    simp only [wasAlertedRecently, Except.ok.injEq]
    rw [List.any_eq_true]
    exact ⟨(c.symbol, t), ht, by simp [hwin]⟩
  simp only [processCandidate]
  split
  · rfl
  · rcases hdb : o.db with u | u
    · simp [wasAlertedRecently, hdb]
    · split
      · rfl
      · rfl
      · rename_i heq
        rw [hq u] at heq
        simp at heq

theorem processCandidate_avg_nonpos (cfg : Config) (st : ScanState) (now : ℤ)
    (c : Candidate) (o : Oracle) (v : ℚ)
    (hv : (getAvgDailyVolume cfg st.avgVolCache now c.symbol o.aggs).1 = .ok v)
    (hle : v ≤ 0) : (processCandidate cfg st now c o).2 = none := by
  simp only [processCandidate]
  split
  · rfl
  · split
    · rfl
    · rfl
    · split
      · rfl
      · rename_i avgVol m heq
        rw [heq] at hv
        simp at hv
        subst hv
        simp [hle]

theorem processCandidate_shape (cfg : Config) (st : ScanState) (now : ℤ)
    (c : Candidate) (o : Oracle) :
    ((processCandidate cfg st now c o).2 = none
      ∧ (processCandidate cfg st now c o).1.alertsTable = st.alertsTable)
    ∨ ∃ v m2 fl fm,
        getAvgDailyVolume cfg st.avgVolCache now c.symbol o.aggs = (.ok v, m2)
        ∧ 0 < v
        ∧ getFloatOrSharesOutstanding st.floatCache now c.symbol o.ref = (.ok fl, fm)
        ∧ (processCandidate cfg st now c o).2 =
            some { ticker := c.symbol, price := c.price,
                   percent_change := c.percentChange,
                   rvol := roundTo2 (c.dayVol / v), float := round fl,
                   news := true }
        ∧ (processCandidate cfg st now c o).1.alertsTable =
            (c.symbol, now) :: st.alertsTable := by
  simp only [processCandidate]
  split
  · exact Or.inl ⟨rfl, rfl⟩
  · split
    · exact Or.inl ⟨rfl, rfl⟩
    · exact Or.inl ⟨rfl, rfl⟩
    · split
      · exact Or.inl ⟨rfl, rfl⟩
      · rename_i avgVol m heq
        split
        · exact Or.inl ⟨rfl, rfl⟩
        · rename_i hpos
          split
          · exact Or.inl ⟨rfl, rfl⟩
          · split
            · exact Or.inl ⟨rfl, rfl⟩
            · split
              · exact Or.inl ⟨rfl, rfl⟩
              · rename_i floatVal fm heqf
                split
                · exact Or.inl ⟨rfl, rfl⟩
                · split
                  · exact Or.inl ⟨rfl, rfl⟩
                  · split
                    · exact Or.inl ⟨rfl, rfl⟩
                    · exact Or.inr ⟨avgVol, m, floatVal, fm, heq,
                        lt_of_not_le hpos, heqf, rfl, rfl⟩

/-- C2 counterexample: with the alert store unreachable
(`wasAlertedRecently` throws) and otherwise fully qualifying data, the
per-candidate worker does not proceed to validation — `deepChecked` stays
`0` and no alert is produced — whereas the identical candidate with a
reachable store validates through to an alert.  The candidate is therefore
silently skipped, refuting the claimed fail-open behaviour. -/
theorem recency_failure_skips_candidate_counterexample :
    ((processCandidate defaultConfig emptyScanState 0 ⟨"AAA", 5, 15, 10000000⟩
        ⟨.error (), .ok (), .ok [1000000], .ok 5, .ok ⟨some 2000000, none, none⟩⟩).2 = none
      ∧ (processCandidate defaultConfig emptyScanState 0 ⟨"AAA", 5, 15, 10000000⟩
        ⟨.error (), .ok (), .ok [1000000], .ok 5, .ok ⟨some 2000000, none, none⟩⟩).1.deepChecked = 0)
    ∧ (processCandidate defaultConfig emptyScanState 0 ⟨"AAA", 5, 15, 10000000⟩
        ⟨.ok (), .ok (), .ok [1000000], .ok 5, .ok ⟨some 2000000, none, none⟩⟩).2 =
      some ⟨"AAA", 5, 15, 10, 2000000, true⟩ :=
  ⟨⟨by with_unfolding_all rfl, by with_unfolding_all rfl⟩, by with_unfolding_all rfl⟩

/-- C2 (amended): when the persisted-recency check fails because the store
is unreachable (the query throws), the per-candidate `try/catch` aborts that
candidate — validation does not proceed (`deepChecked` is not incremented)
and no alert is produced — i.e. the code fails closed by skipping the
candidate; the failure is contained and does not affect other candidates. -/
theorem recency_check_failure_fail_closed (cfg : Config) (st : ScanState)
    (now : ℤ) (c : Candidate) (o : Oracle) (e : Unit) (hdb : o.db = .error e) :
    (processCandidate cfg st now c o).2 = none
    ∧ (processCandidate cfg st now c o).1.deepChecked = st.deepChecked :=
  processCandidate_db_error cfg st now c o e hdb

theorem recency_check_failure_fail_closed_witness :
    (processCandidate defaultConfig emptyScanState 7 ⟨"BBB", 3, 20, 5000000⟩
      ⟨.error (), .ok (), .ok [100000], .ok 2, .ok ⟨some 1000000, none, none⟩⟩).2 = none
    ∧ (processCandidate defaultConfig emptyScanState 7 ⟨"BBB", 3, 20, 5000000⟩
      ⟨.error (), .ok (), .ok [100000], .ok 2, .ok ⟨some 1000000, none, none⟩⟩).1.deepChecked =
      emptyScanState.deepChecked :=
  recency_check_failure_fail_closed defaultConfig emptyScanState 7
    ⟨"BBB", 3, 20, 5000000⟩
    ⟨.error (), .ok (), .ok [100000], .ok 2, .ok ⟨some 1000000, none, none⟩⟩ () rfl

/-- C7: the RVOL step never divides by a zero, negative, or absent average
volume.  (1) When the daily-bars data yields no positive volumes (absent or
all-zero data), `getAvgDailyVolume` returns `0`; (2) whenever the average
volume the run would see is `≤ 0`, the per-candidate worker rejects the
candidate before the `dayVol / avgVol` ratio is formed; (3) any produced
alert's ratio was computed from a strictly positive average volume. -/
theorem rvol_no_nonpositive_denominator :
    (∀ (cfg : Config) (m : CacheMap ℚ) (now : ℤ) (tk : String) (l : List ℚ),
      mapLookup m tk = none →
      (l.filter (fun v => decide (0 < v))).take cfg.avgVolDays = [] →
      (getAvgDailyVolume cfg m now tk (.ok l)).1 = .ok 0)
    ∧ (∀ (cfg : Config) (st : ScanState) (now : ℤ) (c : Candidate) (o : Oracle) (v : ℚ),
        (getAvgDailyVolume cfg st.avgVolCache now c.symbol o.aggs).1 = .ok v →
        v ≤ 0 → (processCandidate cfg st now c o).2 = none)
    ∧ (∀ (cfg : Config) (st : ScanState) (now : ℤ) (c : Candidate) (o : Oracle) (a : Alert),
        (processCandidate cfg st now c o).2 = some a →
        ∃ v m2,
          getAvgDailyVolume cfg st.avgVolCache now c.symbol o.aggs = (.ok v, m2)
          ∧ 0 < v ∧ a.rvol = roundTo2 (c.dayVol / v)) := by
  refine ⟨?_, ?_, ?_⟩
  · intro cfg m now tk l h hl
    simp [getAvgDailyVolume, getCache, h, hl]
  · intro cfg st now c o v hv hle
    exact processCandidate_avg_nonpos cfg st now c o v hv hle
  · intro cfg st now c o a h
    rcases processCandidate_shape cfg st now c o with ⟨hnone, _⟩ | ⟨v, m2, fl, fm, heq, hpos, _, hsome, _⟩
    · rw [h] at hnone
      exact absurd hnone (by simp)
    · rw [h] at hsome
      refine ⟨v, m2, heq, hpos, ?_⟩
      have := Option.some.inj hsome
      rw [this]

theorem rvol_no_nonpositive_denominator_witness :
    ((getAvgDailyVolume defaultConfig ([] : CacheMap ℚ) 0 "AAA" (.ok [0, -5])).1 = .ok 0)
    ∧ ((processCandidate defaultConfig
        { emptyScanState with avgVolCache := [("AAA", ⟨0, 100⟩)] } 50
        ⟨"AAA", 5, 15, 10000000⟩
        ⟨.ok (), .ok (), .ok [1000000], .ok 5, .ok ⟨some 2000000, none, none⟩⟩).2 = none)
    ∧ (∃ v m2,
        getAvgDailyVolume defaultConfig emptyScanState.avgVolCache 0 "AAA"
          (Oracle.aggs ⟨.ok (), .ok (), .ok [1000000], .ok 5, .ok ⟨some 2000000, none, none⟩⟩) =
          (.ok v, m2)
        ∧ 0 < v
        ∧ (Alert.rvol ⟨"AAA", 5, 15, 10, 2000000, true⟩) = roundTo2 (Candidate.dayVol ⟨"AAA", 5, 15, 10000000⟩ / v)) :=
  ⟨rvol_no_nonpositive_denominator.1 defaultConfig [] 0 "AAA" [0, -5]
      (by with_unfolding_all rfl) (by with_unfolding_all rfl),
   rvol_no_nonpositive_denominator.2.1 defaultConfig
      { emptyScanState with avgVolCache := [("AAA", ⟨0, 100⟩)] } 50
      ⟨"AAA", 5, 15, 10000000⟩
      ⟨.ok (), .ok (), .ok [1000000], .ok 5, .ok ⟨some 2000000, none, none⟩⟩ 0
      (by with_unfolding_all rfl) (by norm_num),
   rvol_no_nonpositive_denominator.2.2 defaultConfig emptyScanState 0
      ⟨"AAA", 5, 15, 10000000⟩
      ⟨.ok (), .ok (), .ok [1000000], .ok 5, .ok ⟨some 2000000, none, none⟩⟩
      ⟨"AAA", 5, 15, 10, 2000000, true⟩ (by with_unfolding_all rfl)⟩

theorem processCandidate_table_mono (cfg : Config) (st : ScanState) (now : ℤ)
    (c : Candidate) (o : Oracle) (x : String × ℤ) (hx : x ∈ st.alertsTable) :
    x ∈ (processCandidate cfg st now c o).1.alertsTable := by
  rcases processCandidate_shape cfg st now c o with ⟨_, htab⟩ |
    ⟨v, m2, fl, fm, _, _, _, _, htab⟩ <;> rw [htab]
  · exact hx
  · exact List.mem_cons_of_mem _ hx

theorem runChecks_table_mono (cfg : Config) (evs : List CheckEvent) :
    ∀ (st : ScanState) (x : String × ℤ), x ∈ st.alertsTable →
      x ∈ (runChecks cfg st evs).1.alertsTable := by
  induction evs with
  | nil => intro st x hx; exact hx
  | cons ev rest ih =>
    intro st x hx
    simp only [runChecks]
    exact ih _ x (processCandidate_table_mono cfg st ev.now ev.cand ev.oracle x hx)

theorem processCandidate_alerted (cfg : Config) (st : ScanState) (now : ℤ)
    (c : Candidate) (o : Oracle) (a : Alert)
    (h : (processCandidate cfg st now c o).2 = some a) :
    a.ticker = c.symbol
    ∧ (c.symbol, now) ∈ (processCandidate cfg st now c o).1.alertsTable := by
  rcases processCandidate_shape cfg st now c o with ⟨hnone, _⟩ |
    ⟨v, m2, fl, fm, _, _, _, hsome, htab⟩
  · rw [h] at hnone
    exact absurd hnone (by simp)
  · rw [h] at hsome
    have ha := Option.some.inj hsome
    constructor
    · rw [ha]
    · rw [htab]
      exact List.mem_cons_self _ _

theorem wasAlertedRecently_none (cfg : Config) (table : List (String × ℤ))
    (now : ℤ) (tk : String)
    (h : ∀ t, (tk, t) ∈ table → t + cfg.alertCooldownMin * 60 * 1000 < now) :
    wasAlertedRecently cfg table now tk (.ok ()) = .ok false := by
  simp only [wasAlertedRecently, Except.ok.injEq]
  rw [List.any_eq_false]
  rintro ⟨s, t⟩ hmem
  simp only [decide_eq_true_eq, not_and]
  rintro rfl hle
  have := h t hmem
  omega

theorem getAvgDailyVolume_fresh (cfg : Config) (m : CacheMap ℚ) (now : ℤ)
    (tk : String) (l : List ℚ) (hmiss : mapLookup m tk = none)
    (hne : volsOf cfg l ≠ []) :
    getAvgDailyVolume cfg m now tk (.ok l) =
      (.ok (avgOfVols cfg l),
       setCache m tk (avgOfVols cfg l) (6 * 60 * 60 * 1000) now) := by
  simp only [getAvgDailyVolume, getCache, hmiss]
  rw [if_neg]
  · rfl
  · simpa [volsOf, List.isEmpty_iff] using hne

theorem hasRecentNews_fresh (m : CacheMap Bool) (now : ℤ) (tk : String)
    (k : ℕ) (hmiss : mapLookup m tk = none) :
    hasRecentNews m now tk (.ok k) =
      (decide (0 < k), setCache m tk (decide (0 < k)) (5 * 60 * 1000) now) := by
  simp [hasRecentNews, getCache, hmiss]

theorem getFloat_fresh (m : CacheMap ℚ) (now : ℤ) (tk : String) (r : RefInfo)
    (hmiss : mapLookup m tk = none) :
    getFloatOrSharesOutstanding m now tk (.ok r) =
      (.ok (pickFloatLike r),
       setCache m tk (pickFloatLike r) (24 * 60 * 60 * 1000) now) := by
  simp [getFloatOrSharesOutstanding, getCache, hmiss]

/-- C1: dual-layer cooldown deduplication.  First conjunct (safety): if a
check of candidate `ev` produced an alert `a` (insert plus `setCooldown`)
at time `ev.now`, then any later check `ev'` of the same symbol — after
arbitrarily many interim re-evaluations `evs2` with arbitrary qualifying
data and oracle outcomes — produces no alert as long as
`ev'.now ≤ ev.now + ALERT_COOLDOWN_MIN minutes`: the persisted alert row
forces `wasAlertedRecently` to report true (or the check to abort), so no
second insert can happen inside the window.  Second conjunct (may alert
again): once the window has elapsed past every persisted alert for the
symbol and the in-memory cooldown no longer blocks, a re-evaluation with
qualifying data produces an alert for the symbol again. -/
theorem alert_cooldown_invariant :
    (∀ (cfg : Config) (st0 : ScanState) (evs1 : List CheckEvent)
        (ev ev' : CheckEvent) (evs2 : List CheckEvent) (a : Alert),
      (processCandidate cfg (runChecks cfg st0 evs1).1 ev.now ev.cand ev.oracle).2 = some a →
      ev'.cand.symbol = a.ticker →
      ev'.now ≤ ev.now + cfg.alertCooldownMin * 60 * 1000 →
      (processCandidate cfg
          (runChecks cfg
            (processCandidate cfg (runChecks cfg st0 evs1).1 ev.now ev.cand ev.oracle).1
            evs2).1
          ev'.now ev'.cand ev'.oracle).2 = none)
    ∧ (∀ (cfg : Config) (st : ScanState) (now : ℤ) (c : Candidate) (o : Oracle)
        (l : List ℚ) (k : ℕ) (r : RefInfo),
        (inCooldown st.cooldownMap c.symbol now).1 = false →
        (∀ t, (c.symbol, t) ∈ st.alertsTable →
          t + cfg.alertCooldownMin * 60 * 1000 < now) →
        o.db = .ok () →
        mapLookup st.avgVolCache c.symbol = none →
        o.aggs = .ok l →
        volsOf cfg l ≠ [] →
        0 < avgOfVols cfg l →
        ¬ c.dayVol / avgOfVols cfg l < cfg.minRvol →
        mapLookup st.newsCache c.symbol = none →
        o.news = .ok k → 0 < k →
        mapLookup st.floatCache c.symbol = none →
        o.ref = .ok r → 0 < pickFloatLike r → pickFloatLike r ≤ cfg.maxFloat →
        o.insertDb = .ok () →
        ∃ a, (processCandidate cfg st now c o).2 = some a ∧ a.ticker = c.symbol) := by
  constructor
  · intro cfg st0 evs1 ev ev' evs2 a h hsym hwin
    obtain ⟨hticker, hmem⟩ := processCandidate_alerted _ _ _ _ _ _ h
    have hmem2 := runChecks_table_mono cfg evs2 _ _ hmem
    apply processCandidate_recently_blocked cfg _ ev'.now ev'.cand ev'.oracle ev.now
    · rw [hsym, hticker]
      exact hmem2
    · omega
  · intro cfg st now c o l k r hic hold hdb hm1 haggs hne havg hrv hm2 hnews hk
      hm3 href hfl1 hfl2 hins
    have hw : wasAlertedRecently cfg st.alertsTable now c.symbol o.db = .ok false := by
      rw [hdb]
      exact wasAlertedRecently_none cfg st.alertsTable now c.symbol hold
    have hg : getAvgDailyVolume cfg st.avgVolCache now c.symbol o.aggs =
        (.ok (avgOfVols cfg l),
         setCache st.avgVolCache c.symbol (avgOfVols cfg l) (6 * 60 * 60 * 1000) now) := by
      rw [haggs]
      exact getAvgDailyVolume_fresh cfg st.avgVolCache now c.symbol l hm1 hne
    have hn : hasRecentNews st.newsCache now c.symbol o.news =
        (true, setCache st.newsCache c.symbol true (5 * 60 * 1000) now) := by
      rw [hnews, hasRecentNews_fresh st.newsCache now c.symbol k hm2]
      simp [hk]
    have hf : getFloatOrSharesOutstanding st.floatCache now c.symbol o.ref =
        (.ok (pickFloatLike r),
         setCache st.floatCache c.symbol (pickFloatLike r) (24 * 60 * 60 * 1000) now) := by
      rw [href]
      exact getFloat_fresh st.floatCache now c.symbol r hm3
    refine ⟨{ ticker := c.symbol, price := c.price,
              percent_change := c.percentChange,
              rvol := roundTo2 (c.dayVol / avgOfVols cfg l),
              float := round (pickFloatLike r), news := true }, ?_, rfl⟩
    simp only [processCandidate, hic, hw, hg, hn, hf, hins]
    simp [not_le.mpr havg, hrv, not_le.mpr hfl1, not_lt.mpr hfl2]

theorem alert_cooldown_invariant_witness :
    ((processCandidate defaultConfig
        (runChecks defaultConfig
          (processCandidate defaultConfig
            (runChecks defaultConfig emptyScanState []).1 0
            ⟨"AAA", 5, 15, 10000000⟩
            ⟨.ok (), .ok (), .ok [1000000], .ok 5, .ok ⟨some 2000000, none, none⟩⟩).1
          []).1
        300000 ⟨"AAA", 5, 15, 10000000⟩
        ⟨.ok (), .ok (), .ok [1000000], .ok 5, .ok ⟨some 2000000, none, none⟩⟩).2 = none)
    ∧ (∃ a, (processCandidate defaultConfig
        { emptyScanState with alertsTable := [("AAA", 0)], cooldownMap := [("AAA", 1800000)] } 1800001
        ⟨"AAA", 5, 15, 10000000⟩
        ⟨.ok (), .ok (), .ok [1000000], .ok 5, .ok ⟨some 2000000, none, none⟩⟩).2 = some a
        ∧ a.ticker = "AAA") :=
  ⟨alert_cooldown_invariant.1 defaultConfig emptyScanState []
      ⟨0, ⟨"AAA", 5, 15, 10000000⟩,
        ⟨.ok (), .ok (), .ok [1000000], .ok 5, .ok ⟨some 2000000, none, none⟩⟩⟩
      ⟨300000, ⟨"AAA", 5, 15, 10000000⟩,
        ⟨.ok (), .ok (), .ok [1000000], .ok 5, .ok ⟨some 2000000, none, none⟩⟩⟩
      [] ⟨"AAA", 5, 15, 10, 2000000, true⟩
      (by with_unfolding_all rfl) rfl (by decide),
   alert_cooldown_invariant.2 defaultConfig
      { emptyScanState with alertsTable := [("AAA", 0)], cooldownMap := [("AAA", 1800000)] } 1800001
      ⟨"AAA", 5, 15, 10000000⟩
      ⟨.ok (), .ok (), .ok [1000000], .ok 5, .ok ⟨some 2000000, none, none⟩⟩
      [1000000] 5 ⟨some 2000000, none, none⟩
      (by with_unfolding_all rfl)
      (by rintro t ht; simp [defaultConfig] at ht ⊢; omega)
      rfl (by with_unfolding_all rfl) rfl
      (of_decide_eq_true (by with_unfolding_all rfl))
      (of_decide_eq_true (by with_unfolding_all rfl))
      (of_decide_eq_true (by with_unfolding_all rfl))
      (by with_unfolding_all rfl) rfl (by decide)
      (by with_unfolding_all rfl) rfl
      (of_decide_eq_true (by with_unfolding_all rfl))
      (of_decide_eq_true (by with_unfolding_all rfl))
      rfl⟩

/-- C5: the prefilter (a pure function of its inputs) sorts its output
descending by day volume; with the cap disabled it keeps exactly the mapped
entries having a non-empty symbol, price inclusively within
`[priceMin, priceMax]` and percent change `≥ minPercentChange` (boundaries
included, multiset-exactly via the permutation); and the capped output is
the `maxCount`-prefix of the uncapped output exactly when `maxCount` is
positive, with `maxCount ≤ 0` meaning unbounded. -/
theorem prefilter_spec (cfg : Config) (tickers : List RawTicker) :
    (prefilter cfg tickers).Sorted volDescLE
    ∧ (prefilter { cfg with maxCandidates := 0 } tickers).Perm
        ((tickers.map toCandidate).filter (fun t =>
          decide (t.symbol ≠ "" ∧ cfg.priceMin ≤ t.price ∧ t.price ≤ cfg.priceMax
            ∧ cfg.minPercentChange ≤ t.percentChange)))
    ∧ (∀ c, c ∈ prefilter { cfg with maxCandidates := 0 } tickers ↔
        c ∈ tickers.map toCandidate ∧ c.symbol ≠ "" ∧ cfg.priceMin ≤ c.price ∧
        c.price ≤ cfg.priceMax ∧ cfg.minPercentChange ≤ c.percentChange)
    ∧ prefilter cfg tickers =
        (if 0 < cfg.maxCandidates
         then (prefilter { cfg with maxCandidates := 0 } tickers).take cfg.maxCandidates.toNat
         else prefilter { cfg with maxCandidates := 0 } tickers) := by
  have hfe : (((tickers.map toCandidate).filter (fun t =>
        decide (t.symbol ≠ "" ∧ cfg.priceMin ≤ t.price ∧ t.price ≤ cfg.priceMax))).filter
      (fun t => decide (cfg.minPercentChange ≤ t.percentChange))) =
      (tickers.map toCandidate).filter (fun t =>
        decide (t.symbol ≠ "" ∧ cfg.priceMin ≤ t.price ∧ t.price ≤ cfg.priceMax
          ∧ cfg.minPercentChange ≤ t.percentChange)) := by
    rw [List.filter_filter]
    apply List.filter_congr
    intro a _
    by_cases h1 : a.symbol ≠ "" ∧ cfg.priceMin ≤ a.price ∧ a.price ≤ cfg.priceMax <;>
      by_cases h2 : cfg.minPercentChange ≤ a.percentChange <;>
      simp [h1, h2]
  have hperm : (prefilter { cfg with maxCandidates := 0 } tickers).Perm
      ((tickers.map toCandidate).filter (fun t =>
        decide (t.symbol ≠ "" ∧ cfg.priceMin ≤ t.price ∧ t.price ≤ cfg.priceMax
          ∧ cfg.minPercentChange ≤ t.percentChange))) := by
    simp only [prefilter]
    rw [if_neg (by norm_num)]
    rw [← hfe]
    exact List.perm_insertionSort volDescLE _
  refine ⟨?_, hperm, ?_, ?_⟩
  · simp only [prefilter]
    have hs := List.sorted_insertionSort volDescLE
      (((tickers.map toCandidate).filter (fun t =>
          decide (t.symbol ≠ "" ∧ cfg.priceMin ≤ t.price ∧ t.price ≤ cfg.priceMax))).filter
        (fun t => decide (cfg.minPercentChange ≤ t.percentChange)))
    split
    · exact List.Pairwise.sublist (List.take_sublist _ _) hs
    · exact hs
  · intro c
    rw [hperm.mem_iff, List.mem_filter]
    simp [and_assoc]
  · simp only [prefilter]
    rw [if_neg (show ¬ (0 : ℤ) < 0 by norm_num)]

/-- C6: the snapshot fetcher follows continuation tokens page by page and
concatenates all visited pages' tickers in order; it caps the loop at the
`MAX_PAGES = 20` ceiling, returning the accumulated entries without error
when the budget runs out (the success conjunct holds whether the chain
terminates or is cut by the budget); and if any single page request along
the chain fails, the whole fetch returns that error with no partial
result. -/
theorem fetchAllSnapshotTickers_spec (key : String)
    (fetch : String → Except Unit SnapPage) :
    fetchAllSnapshotTickers key fetch = fetchLoop key fetch 20 (snapshotUrl key)
    ∧ (∀ n url, chainOk key fetch n url →
        fetchLoop key fetch n url =
          .ok (((pageChain key fetch n url).map SnapPage.tickers).flatten))
    ∧ (∀ k n url u e, k < n → reachUrl key fetch k url = some u →
        fetch u = .error e → fetchLoop key fetch n url = .error e) := by
  refine ⟨rfl, ?_, ?_⟩
  · intro n
    induction n with
    | zero => intro url _; rfl
    | succ m ih =>
      intro url hc
      obtain ⟨d, hd, hnext⟩ := hc
      by_cases he : d.nextUrl.getD "" = ""
      · simp [fetchLoop, pageChain, hd, he]
      · simp [fetchLoop, pageChain, hd, he, ih _ (hnext he)]
  · intro k
    induction k with
    | zero =>
      intro n url u e hlt hr hf
      cases n with
      | zero => omega
      | succ m =>
        simp only [reachUrl] at hr
        injection hr with hr
        subst hr
        simp [fetchLoop, hf]
    | succ j ih =>
      intro n url u e hlt hr hf
      cases n with
      | zero => omega
      | succ m =>
        simp only [reachUrl] at hr
        rcases hd : fetch url with e' | d
        · rw [hd] at hr
          simp at hr
        · rw [hd] at hr
          dsimp only at hr
          by_cases he : d.nextUrl.getD "" = ""
          · rw [if_pos he] at hr
            simp at hr
          · rw [if_neg he] at hr
            have := ih m (withApiKey key (d.nextUrl.getD "")) u e (by omega) hr hf
            simp [fetchLoop, hd, he, this]

theorem fetchAllSnapshotTickers_spec_witness :
    (fetchAllSnapshotTickers "k" (fun _ => .ok ⟨[⟨some "A", none, none, none⟩], none⟩) =
      fetchLoop "k" (fun _ => .ok ⟨[⟨some "A", none, none, none⟩], none⟩) 20
        (snapshotUrl "k"))
    ∧ (fetchLoop "k" (fun _ => .ok ⟨[⟨some "A", none, none, none⟩], none⟩) 20
        (snapshotUrl "k") =
      .ok (((pageChain "k" (fun _ => .ok ⟨[⟨some "A", none, none, none⟩], none⟩) 20
        (snapshotUrl "k")).map SnapPage.tickers).flatten))
    ∧ (fetchLoop "k" (fun _ => .error ()) 20 (snapshotUrl "k") = .error ()) :=
  ⟨(fetchAllSnapshotTickers_spec "k"
      (fun _ => .ok ⟨[⟨some "A", none, none, none⟩], none⟩)).1,
   (fetchAllSnapshotTickers_spec "k"
      (fun _ => .ok ⟨[⟨some "A", none, none, none⟩], none⟩)).2.1 20 (snapshotUrl "k")
      ⟨⟨[⟨some "A", none, none, none⟩], none⟩, rfl, fun h => absurd rfl h⟩,
   (fetchAllSnapshotTickers_spec "k" (fun _ => .error ())).2.2 0 20
      (snapshotUrl "k") (snapshotUrl "k") () (by decide) rfl rfl⟩

theorem stepOrch_started_running (st : OrchState) (t : ℤ)
    (h : (stepOrch st (.tick t)).2 = true) :
    (stepOrch st (.tick t)).1.isScanning = true := by
  cases hs : st.isScanning
  · simp [stepOrch, scanEnter, hs]
  · simp [stepOrch, scanEnter, hs] at h

theorem runOrch_noFinish_running : ∀ (evs : List OrchEvent) (st : OrchState),
    st.isScanning = true →
    (∀ ev ∈ evs, ∀ now started err, ev ≠ OrchEvent.finish now started err) →
    (runOrch st evs).1.isScanning = true := by
  intro evs
  induction evs with
  | nil => intro st h _; exact h
  | cons ev rest ih =>
    intro st h hnf
    simp only [runOrch]
    apply ih _ _ (fun e he => hnf e (List.mem_cons_of_mem _ he))
    cases ev with
    | tick now => simp [stepOrch, scanEnter, h]
    | finish now started err =>
      exact absurd rfl (hnf _ (List.mem_cons_self _ _) now started err)

/-- C8: the orchestrator is a two-state (Idle/Running) machine with a
single-flight guard.  A tick on a Running state only refreshes the
heartbeat and starts nothing (the tick is dropped, not queued); a tick on
an Idle state enters Running with the per-run counters reset to zero, the
start time recorded, and the last error cleared; and once a scan has
started, no later tick starts a second scan until a finish event has
intervened — so two scans never overlap. -/
theorem orchestrator_single_flight :
    (∀ (st : OrchState) (now : ℤ), st.isScanning = true →
      stepOrch st (.tick now) = ({ st with lastLoopAt := some now }, false))
    ∧ (∀ (st : OrchState) (now : ℤ), st.isScanning = false →
      stepOrch st (.tick now) =
        ({ st with
            lastLoopAt := some now, isScanning := true,
            scanRuns := st.scanRuns + 1, lastError := none,
            lastScanStartedAt := some now, tickersFetched := 0,
            candidatesFound := 0, deepChecked := 0, alertsCreated := 0 }, true))
    ∧ (∀ (st0 : OrchState) (evs1 : List OrchEvent) (t1 : ℤ)
        (evs2 : List OrchEvent) (t2 : ℤ),
        (stepOrch (runOrch st0 evs1).1 (.tick t1)).2 = true →
        (∀ ev ∈ evs2, ∀ now started err, ev ≠ OrchEvent.finish now started err) →
        (stepOrch
          (runOrch (stepOrch (runOrch st0 evs1).1 (.tick t1)).1 evs2).1
          (.tick t2)).2 = false) := by
  refine ⟨?_, ?_, ?_⟩
  · intro st now h
    simp [stepOrch, scanEnter, h]
  · intro st now h
    simp [stepOrch, scanEnter, h]
  · intro st0 evs1 t1 evs2 t2 hstart hnf
    have h1 := stepOrch_started_running (runOrch st0 evs1).1 t1 hstart
    have h2 := runOrch_noFinish_running evs2 _ h1 hnf
    have hdrop : ∀ (st : OrchState) (t : ℤ), st.isScanning = true →
        (stepOrch st (.tick t)).2 = false := by
      intro st t h
      simp [stepOrch, scanEnter, h]
    exact hdrop _ t2 h2

theorem orchestrator_single_flight_witness :
    (stepOrch ⟨true, none, none, none, none, none, 0, 0, 0, 0, 0⟩ (.tick 5) =
      ({ (⟨true, none, none, none, none, none, 0, 0, 0, 0, 0⟩ : OrchState) with
          lastLoopAt := some 5 }, false))
    ∧ (stepOrch ⟨false, some "boom", none, none, none, none, 1, 2, 3, 4, 5⟩ (.tick 9) =
      ({ (⟨false, some "boom", none, none, none, none, 1, 2, 3, 4, 5⟩ : OrchState) with
          lastLoopAt := some 9, isScanning := true,
          scanRuns := 6, lastError := none,
          lastScanStartedAt := some 9, tickersFetched := 0,
          candidatesFound := 0, deepChecked := 0, alertsCreated := 0 }, true))
    ∧ ((stepOrch
        (runOrch
          (stepOrch
            (runOrch ⟨false, none, none, none, none, none, 0, 0, 0, 0, 0⟩ []).1
            (.tick 5)).1
          [.tick 6]).1
        (.tick 7)).2 = false) :=
  ⟨orchestrator_single_flight.1 ⟨true, none, none, none, none, none, 0, 0, 0, 0, 0⟩ 5 rfl,
   orchestrator_single_flight.2.1 ⟨false, some "boom", none, none, none, none, 1, 2, 3, 4, 5⟩ 9 rfl,
   orchestrator_single_flight.2.2 ⟨false, none, none, none, none, none, 0, 0, 0, 0, 0⟩
     [] 5 [.tick 6] 7 rfl
     (by rintro ev hev n s er; simp at hev; subst hev; simp)⟩

theorem mem_set_of_mem_of_ne {γ : Type} {l : List γ} {x w y : γ} {r : ℕ}
    (hx : x ∈ l) (hw : l[r]? = some w) (hne : x ≠ w) : x ∈ l.set r y := by
  obtain ⟨p, hp, hval⟩ := List.mem_iff_getElem.mp hx
  rcases eq_or_ne p r with rfl | hpr
  · exfalso
    have hq : l[p]? = some x := by rw [List.getElem?_eq_getElem hp, hval]
    rw [hw] at hq
    exact hne (Option.some.inj hq).symm
  · apply List.mem_iff_getElem.mpr
    refine ⟨p, by simpa using hp, ?_⟩
    rw [List.getElem_set_ne (by omega)]
    exact hval

theorem mem_set_self {γ : Type} (l : List γ) (r : ℕ) (y : γ)
    (h : r < l.length) : y ∈ l.set r y := by
  apply List.mem_iff_getElem.mpr
  exact ⟨r, by simpa using h, by simp⟩

theorem stepExec_runners_length {α ε ρ : Type} (f : α → ℕ → Except ε ρ)
    (items : List α) (s : ExecState ρ) (r : ℕ) :
    (stepExec f items s r).runners.length = s.runners.length := by
  unfold stepExec
  split
  · split <;> simp
  · split
    · rfl
    · split <;> simp
  · rfl
  · rfl
  · rfl

theorem execInv_step {α ε ρ : Type} (f : α → ℕ → Except ε ρ) (items : List α)
    (s : ExecState ρ) (r : ℕ) (h : ExecInv f items s) :
    ExecInv f items (stepExec f items s r) := by
  obtain ⟨h1, h2, h3, h4, h5⟩ := h
  unfold stepExec
  split
  · rename_i hr
    split
    · rename_i hlt
      obtain ⟨hrlen, _⟩ := List.getElem?_eq_some.mp hr
      dsimp only [ExecInv]
      refine ⟨by omega, h2, ?_, ?_, ?_⟩
      · intro i hi
        rcases Nat.lt_succ_iff_lt_or_eq.mp hi with hi' | rfl
        · rcases h3 i hi' with hres | hw | hf
          · exact Or.inl hres
          · exact Or.inr (Or.inl (mem_set_of_mem_of_ne hw hr (by simp)))
          · exact Or.inr (Or.inr (mem_set_of_mem_of_ne hf hr (by simp)))
        · exact Or.inr (Or.inl (mem_set_self _ r _ hrlen))
      · intro hd
        rcases List.mem_or_eq_of_mem_set hd with hd' | hEq
        · have := h4 hd'
          omega
        · exact absurd hEq (by simp)
      · intro i hw
        rcases List.mem_or_eq_of_mem_set hw with hw' | hEq
        · have := h5 i hw'
          omega
        · have : i = s.idx := by simpa using hEq
          omega
    · rename_i hge
      dsimp only [ExecInv]
      refine ⟨h1, h2, ?_, ?_, ?_⟩
      · intro i hi
        rcases h3 i hi with hres | hw | hf
        · exact Or.inl hres
        · exact Or.inr (Or.inl (mem_set_of_mem_of_ne hw hr (by simp)))
        · exact Or.inr (Or.inr (mem_set_of_mem_of_ne hf hr (by simp)))
      · intro _
        omega
      · intro i hw
        rcases List.mem_or_eq_of_mem_set hw with hw' | hEq
        · exact h5 i hw'
        · exact absurd hEq (by simp)
  · rename_i i0 hr
    split
    · exact ⟨h1, h2, h3, h4, h5⟩
    · rename_i a hitem
      split
      · rename_i v hok
        obtain ⟨hrlen, _⟩ := List.getElem?_eq_some.mp hr
        dsimp only [ExecInv]
        refine ⟨h1, ?_, ?_, ?_, ?_⟩
        · intro j w hjw
          by_cases hji : j = i0
          · subst hji
            have hw : w = v := by
              have := hjw
              simp [updRes] at this
              exact this.symm
            subst hw
            exact ⟨a, hitem, hok⟩
          · have : s.results j = some w := by simpa [updRes, hji] using hjw
            exact h2 j w this
        · intro j hj
          rcases h3 j hj with hres | hwk | hf
          · refine Or.inl ?_
            by_cases hji : j = i0
            · simp [updRes, hji]
            · simpa [updRes, hji] using hres
          · by_cases hji : j = i0
            · refine Or.inl ?_
              simp [updRes, hji]
            · exact Or.inr (Or.inl (mem_set_of_mem_of_ne hwk hr (by simp [hji])))
          · exact Or.inr (Or.inr (mem_set_of_mem_of_ne hf hr (by simp)))
        · intro hd
          rcases List.mem_or_eq_of_mem_set hd with hd' | hEq
          · exact h4 hd'
          · exact absurd hEq (by simp)
        · intro j hw
          rcases List.mem_or_eq_of_mem_set hw with hw' | hEq
          · exact h5 j hw'
          · exact absurd hEq (by simp)
      · rename_i e herr
        obtain ⟨hrlen, _⟩ := List.getElem?_eq_some.mp hr
        dsimp only [ExecInv]
        refine ⟨h1, h2, ?_, ?_, ?_⟩
        · intro j hj
          exact Or.inr (Or.inr (mem_set_self _ r _ hrlen))
        · intro hd
          rcases List.mem_or_eq_of_mem_set hd with hd' | hEq
          · exact h4 hd'
          · exact absurd hEq (by simp)
        · intro j hw
          rcases List.mem_or_eq_of_mem_set hw with hw' | hEq
          · exact h5 j hw'
          · exact absurd hEq (by simp)
  · exact ⟨h1, h2, h3, h4, h5⟩
  · exact ⟨h1, h2, h3, h4, h5⟩
  · exact ⟨h1, h2, h3, h4, h5⟩

theorem execInv_init {α ε ρ : Type} (f : α → ℕ → Except ε ρ) (items : List α)
    (limit : ℕ) : ExecInv f items (initExec ρ limit) := by
  refine ⟨Nat.zero_le _, ?_, ?_, ?_, ?_⟩
  · intro i v hv
    exact absurd hv (by simp [initExec])
  · intro i hi
    exact absurd hi (by simp [initExec])
  · intro hd
    have := List.eq_of_mem_replicate hd
    simp at this
  · intro i hw
    have := List.eq_of_mem_replicate hw
    simp at this

theorem execInv_run {α ε ρ : Type} (f : α → ℕ → Except ε ρ) (items : List α)
    (limit : ℕ) (sched : List ℕ) :
    ExecInv f items (runExec f items limit sched) := by
  unfold runExec
  have hgen : ∀ (l : List ℕ) (s : ExecState ρ), ExecInv f items s →
      ExecInv f items (l.foldl (stepExec f items) s) := by
    intro l
    induction l with
    | nil => intro s hs; exact hs
    | cons r rest ih =>
      intro s hs
      exact ih _ (execInv_step f items s r hs)
  exact hgen sched _ (execInv_init f items limit)

theorem runExec_runners_length {α ε ρ : Type} (f : α → ℕ → Except ε ρ)
    (items : List α) (limit : ℕ) (sched : List ℕ) :
    (runExec f items limit sched).runners.length = max 1 limit := by
  unfold runExec
  have hgen : ∀ (l : List ℕ) (s : ExecState ρ),
      (l.foldl (stepExec f items) s).runners.length = s.runners.length := by
    intro l
    induction l with
    | nil => intro s; rfl
    | cons r rest ih =>
      intro s
      rw [List.foldl_cons, ih, stepExec_runners_length]
  rw [hgen]
  simp [initExec]

theorem allDone_mem {ρ : Type} (s : ExecState ρ) (h : allDone s = true)
    (st : RStatus ρ) (hst : st ∈ s.runners) : st = .done := by
  have := List.all_eq_true.mp h st hst
  cases st <;> simp_all

theorem seqInv_step {α ε ρ : Type} (f : α → ℕ → Except ε ρ) (items : List α)
    (s : ExecState ρ) (r : ℕ) (h : SeqInv s) : SeqInv (stepExec f items s r) := by
  have hs := h
  unfold stepExec
  rcases h with ⟨hrun | hrun, hres⟩ | ⟨j, hidx, hrun | hrun, hres⟩
  · rw [hrun]
    cases r with
    | zero =>
      simp only [List.getElem?_cons_zero]
      split
      · exact Or.inr ⟨s.idx, rfl, Or.inl (by simp), hres⟩
      · exact Or.inl ⟨Or.inr (by simp), hres⟩
    | succ r' => exact hs
  · rw [hrun]
    cases r with
    | zero => exact hs
    | succ r' => exact hs
  · rw [hrun]
    cases r with
    | zero =>
      simp only [List.getElem?_cons_zero]
      split
      · exact hs
      · rename_i a hitem
        split
        · rename_i v hok
          refine Or.inl ⟨Or.inl (by simp), ?_⟩
          intro i
          dsimp only [updRes]
          by_cases hij : i = j
          · subst hij
            simp [hidx]
          · rw [if_neg hij, hres i, hidx]
            omega
        · exact Or.inr ⟨j, hidx, Or.inr (by simp), hres⟩
    | succ r' => exact hs
  · rw [hrun]
    cases r with
    | zero => exact hs
    | succ r' => exact hs

theorem seqInv_run {α ε ρ : Type} (f : α → ℕ → Except ε ρ) (items : List α)
    (sched : List ℕ) : SeqInv (runExec f items 1 sched) := by
  unfold runExec
  have hgen : ∀ (l : List ℕ) (s : ExecState ρ), SeqInv s →
      SeqInv (l.foldl (stepExec f items) s) := by
    intro l
    induction l with
    | nil => intro s hs; exact hs
    | cons r rest ih =>
      intro s hs
      exact ih _ (seqInv_step f items s r hs)
  apply hgen
  exact Or.inl ⟨Or.inl (by simp [initExec]), fun i => by simp [initExec]⟩

/-- C3 counterexample: with `limit = 1` and a worker that throws on item 0,
the single runner claims item 0, the thrown exception kills its loop
(status `failed`), the machine is stuck (further scheduling changes
nothing), the call never reaches the all-done join, and item 1 is never
processed — an exception thrown by the worker on one item does prevent the
remaining items from being processed. -/
theorem runWithConcurrency_exception_counterexample :
    ((runExec (fun (a : ℕ) (_ : ℕ) => if a = 0 then (.error () : Except Unit ℕ) else .ok a)
        [0, 1] 1 [0, 0, 0]).results 1 = none)
    ∧ ((runExec (fun (a : ℕ) (_ : ℕ) => if a = 0 then (.error () : Except Unit ℕ) else .ok a)
        [0, 1] 1 [0, 0, 0]).runners = [.failed])
    ∧ (allDone (runExec (fun (a : ℕ) (_ : ℕ) => if a = 0 then (.error () : Except Unit ℕ) else .ok a)
        [0, 1] 1 [0, 0, 0]) = false)
    ∧ (stepExec (fun (a : ℕ) (_ : ℕ) => if a = 0 then (.error () : Except Unit ℕ) else .ok a)
        [0, 1]
        (runExec (fun (a : ℕ) (_ : ℕ) => if a = 0 then (.error () : Except Unit ℕ) else .ok a)
          [0, 1] 1 [0, 0, 0]) 0 =
      runExec (fun (a : ℕ) (_ : ℕ) => if a = 0 then (.error () : Except Unit ℕ) else .ok a)
        [0, 1] 1 [0, 0, 0]) :=
  ⟨by with_unfolding_all rfl, by with_unfolding_all rfl,
   by with_unfolding_all rfl, by with_unfolding_all rfl⟩

/-- C3 (amended): `runWithConcurrency` spawns exactly `max(1, limit)`
logical runners pulling from the shared index cursor; under every
scheduling, when the call returns (all runners done) every one of the `M`
items has been processed exactly at its own slot — `results[i]` holds the
worker's value for `items[i]` — and no slot beyond `M` is written; and with
`limit = 1` the written slots always form a prefix of the input, i.e.
execution is sequential in input order.  (The original claim's
exception-tolerance clause is false — see the counterexample: a throwing
worker kills its runner, so the executor only enjoys these guarantees
because the scan's per-candidate worker catches all its errors and never
throws.) -/
theorem runWithConcurrency_spec {α ε ρ : Type} (f : α → ℕ → Except ε ρ)
    (items : List α) (limit : ℕ) :
    (initExec ρ limit).runners.length = max 1 limit
    ∧ (∀ sched, allDone (runExec f items limit sched) = true →
        ∀ i, i < items.length → ∃ a v, items[i]? = some a ∧ f a i = .ok v ∧
          (runExec f items limit sched).results i = some v)
    ∧ (∀ sched i, items.length ≤ i →
        (runExec f items limit sched).results i = none)
    ∧ (limit = 1 → ∀ sched i j, j ≤ i →
        (runExec f items limit sched).results i ≠ none →
        (runExec f items limit sched).results j ≠ none) := by
  refine ⟨by simp [initExec], ?_, ?_, ?_⟩
  · intro sched hdone i hi
    obtain ⟨hidx, hresv, hcov, hdn, hwb⟩ := execInv_run f items limit sched
    have hlen := runExec_runners_length f items limit sched
    have hpos : 0 < (runExec f items limit sched).runners.length := by
      rw [hlen]
      omega
    obtain ⟨st0, hst0⟩ := List.exists_mem_of_length_pos hpos
    have hd0 := allDone_mem _ hdone st0 hst0
    rw [hd0] at hst0
    have hle : items.length ≤ (runExec f items limit sched).idx := hdn hst0
    rcases hcov i (by omega) with hr | hw | hf
    · rcases Option.ne_none_iff_exists'.mp hr with ⟨v, hv⟩
      obtain ⟨a, ha, hfa⟩ := hresv i v hv
      exact ⟨a, v, ha, hfa, hv⟩
    · have := allDone_mem _ hdone _ hw
      simp at this
    · have := allDone_mem _ hdone _ hf
      simp at this
  · intro sched i hi
    by_contra hne
    obtain ⟨hidx, hresv, _, _, _⟩ := execInv_run f items limit sched
    rcases Option.ne_none_iff_exists'.mp hne with ⟨v, hv⟩
    obtain ⟨a, ha, _⟩ := hresv i v hv
    rw [List.getElem?_eq_none (by omega)] at ha
    exact Option.noConfusion ha
  · intro hlim sched i j hji hri
    subst hlim
    rcases seqInv_run f items sched with ⟨_, hres⟩ | ⟨jj, _, _, hres⟩
    · rw [hres j]
      rw [hres i] at hri
      omega
    · rw [hres j]
      rw [hres i] at hri
      omega

theorem runWithConcurrency_spec_witness :
    ((initExec ℕ 2).runners.length = max 1 2)
    ∧ (∃ a v, ([10, 20, 30] : List ℕ)[2]? = some a
        ∧ (fun (x : ℕ) (i : ℕ) => (.ok (x + i) : Except Unit ℕ)) a 2 = .ok v
        ∧ (runExec (fun (x : ℕ) (i : ℕ) => (.ok (x + i) : Except Unit ℕ))
            [10, 20, 30] 2 [0, 0, 1, 1, 0, 0, 0, 1]).results 2 = some v)
    ∧ ((runExec (fun (x : ℕ) (i : ℕ) => (.ok (x + i) : Except Unit ℕ))
        [10, 20, 30] 2 [0, 0, 1, 1, 0, 0, 0, 1]).results 5 = none)
    ∧ ((runExec (fun (x : ℕ) (i : ℕ) => (.ok (x + i) : Except Unit ℕ))
        [10, 20] 1 [0, 0, 0, 0]).results 0 ≠ none) :=
  ⟨(runWithConcurrency_spec (fun (x : ℕ) (i : ℕ) => (.ok (x + i) : Except Unit ℕ))
      [10, 20, 30] 2).1,
   (runWithConcurrency_spec (fun (x : ℕ) (i : ℕ) => (.ok (x + i) : Except Unit ℕ))
      [10, 20, 30] 2).2.1 [0, 0, 1, 1, 0, 0, 0, 1] (by decide) 2 (by decide),
   (runWithConcurrency_spec (fun (x : ℕ) (i : ℕ) => (.ok (x + i) : Except Unit ℕ))
      [10, 20, 30] 2).2.2.1 [0, 0, 1, 1, 0, 0, 0, 1] 5 (by decide),
   (runWithConcurrency_spec (fun (x : ℕ) (i : ℕ) => (.ok (x + i) : Except Unit ℕ))
      [10, 20] 1).2.2.2 rfl [0, 0, 0, 0] 1 0 (by decide) (by decide)⟩
